import Mathlib

/-!
Verification development for the reinfolib API client.

The embedding follows the three source modules:
* `models.py` — pydantic record types on a shared base model
  (`ReinfoBaseModel`) with alias resolution, empty-string-to-null
  normalization, and the `Geometry` coordinate-depth validator;
* `api_http_client.py` — URL building, auth-header merging, lazy session
  creation, and the configured retry policy;
* `api_client.py` — the endpoint façade: parameter dictionaries and the
  `_get_data` response pipeline.

JSON values are embedded as an inductive type; Python floats are modelled
as rationals (Python keeps `int` and `float` apart at runtime, and so does
the embedding).  Stateful code (the cached session) is embedded as explicit
state passing; fallible code returns `Except`.
-/

namespace Reinfolib

/-- JSON values as delivered by the upstream API.  `isinstance(l, float)`
is false for Python ints, so integers and floats are separate
constructors. -/
inductive JValue where
  | jnull : JValue
  | jbool : Bool → JValue
  | jint : Int → JValue
  | jfloat : Rat → JValue
  | jstr : String → JValue
  | jarr : List JValue → JValue
  | jobj : List (String × JValue) → JValue

/-- Python dict lookup `d.get(k)`: the entry for a key (JSON objects have
unique keys; the first match is taken). -/
def assoc (fields : List (String × JValue)) (k : String) : Option JValue :=
  (fields.find? (fun p => p.1 == k)).map (fun p => p.2)

/-- Python `str.strip()`: leading and trailing whitespace removed. -/
def pyStrip (s : String) : String :=
  ⟨((s.data.dropWhile Char.isWhitespace).reverse.dropWhile Char.isWhitespace).reverse⟩

/-- `ReinfoBaseModel.empty_str_to_none` (models.py): a value that is a
string and strips to the empty string becomes `None`; every other value is
returned unchanged. -/
def empty_str_to_none (v : JValue) : JValue :=
  match v with
  | .jstr s => if pyStrip s = "" then .jnull else .jstr s
  | w => w

/-- Declared field types occurring in the record models (`str`, `int`,
`float`, each possibly wrapped in `Optional`). -/
inductive FType where
  | fstr : FType
  | fint : FType
  | ffloat : FType
deriving DecidableEq

/-- A validated field value held by a constructed record. -/
inductive FVal where
  | vstr : String → FVal
  | vint : Int → FVal
  | vfloat : Rat → FVal
deriving DecidableEq

/-- Pydantic lax coercion of a non-null wire value into a field of the
declared type: `str` fields accept only strings; numeric fields accept
their own kind, `int`-valued floats, and numeric strings (decimal strings
are modelled only in integer form, which no claim exercises). -/
def coerce (t : FType) (v : JValue) : Except String FVal :=
  match t, v with
  | .fstr, .jstr s => .ok (.vstr s)
  | .fint, .jint n => .ok (.vint n)
  | .fint, .jfloat x => if x.den = 1 then .ok (.vint x.num) else .error "int expected"
  | .fint, .jstr s =>
    match s.toInt? with
    | some n => .ok (.vint n)
    | none => .error "int expected"
  | .ffloat, .jfloat x => .ok (.vfloat x)
  | .ffloat, .jint n => .ok (.vfloat (n : Rat))
  | .ffloat, .jstr s =>
    match s.toInt? with
    | some n => .ok (.vfloat (n : Rat))
    | none => .error "float expected"
  | _, _ => .error "wrong type"

/-- One declared field of a record model: canonical name, wire name (the
declared alias; equal to the name when the field has no alias), whether
the field is required (declared with `...` rather than a `None` default),
and its type. -/
structure FieldSpec where
  name : String
  wireName : String
  required : Bool
  ftype : FType
deriving DecidableEq

/-- Raw wire value for a field: pydantic looks up the alias and, because
`ReinfoBaseModel.Config` sets `populate_by_name`, falls back to the
canonical field name. -/
def lookupRaw (obj : List (String × JValue)) (fs : FieldSpec) : Option JValue :=
  match assoc obj fs.wireName with
  | some v => some v
  | none => assoc obj fs.name

/-- Python `value is None`. -/
def JValue.isNull : JValue → Bool
  | .jnull => true
  | _ => false

/-- Validation of a present wire value: it passes through
`empty_str_to_none` first (the `mode="before"` validator), then a `None`
result takes the null value (or fails when the field is required), and
anything else is coerced to the declared type. -/
def buildPresent (t : FType) (required : Bool) (raw : JValue) :
    Except String (Option FVal) :=
  let v := empty_str_to_none raw
  if v.isNull then
    if required then .error "null not allowed" else .ok none
  else (coerce t v).map some

/-- Validation of a single field: absent fields take the `None` default
(or fail when required); present values go through `buildPresent`. -/
def buildField (obj : List (String × JValue)) (fs : FieldSpec) :
    Except String (Option FVal) :=
  match lookupRaw obj fs with
  | none => if fs.required then .error "field required" else .ok none
  | some raw => buildPresent fs.ftype fs.required raw

/-- A constructed record: each declared field holds either a value or
null. -/
abbrev Record := List (String × Option FVal)

/-- Construction of a record model instance from a wire object (pydantic
`cls(**d)` for a `ReinfoBaseModel` subclass): every declared field is
validated; the first failure aborts the whole construction. -/
def buildRecord (specs : List FieldSpec) (obj : List (String × JValue)) :
    Except String Record :=
  match specs with
  | [] => .ok []
  | fs :: rest =>
    match buildField obj fs with
    | .error e => .error e
    | .ok v =>
      match buildRecord rest obj with
      | .error e => .error e
      | .ok r => .ok ((fs.name, v) :: r)

/-- `cls(**d)` requires the array element to be a JSON object. -/
def buildElem (specs : List FieldSpec) (d : JValue) : Except String Record :=
  match d with
  | .jobj o => buildRecord specs o
  | _ => .error "mapping expected"

/-- The list comprehension `[cls(**d) for d in resp.data]`: elements are
constructed in order and the first exception aborts the call. -/
def buildList (specs : List FieldSpec) (ds : List JValue) :
    Except String (List Record) :=
  match ds with
  | [] => .ok []
  | d :: rest =>
    match buildElem specs d with
    | .error e => .error e
    | .ok r =>
      match buildList specs rest with
      | .error e => .error e
      | .ok rs => .ok (r :: rs)

/-- `DataAPIResponse` (models.py): `status: str`, `data: list[T]`.  With
`T` an unbound type variable the elements stay raw. -/
structure DataAPIResponse where
  status : String
  data : List JValue

/-- Validation of the tabular envelope `DataAPIResponse(**json)`: the body
must be an object carrying a string `status` and an array `data`; extra
keys are ignored (pydantic's default). -/
def parseDataAPIResponse (body : JValue) : Except String DataAPIResponse :=
  match body with
  | .jobj fields =>
    match assoc fields "status", assoc fields "data" with
    | some (.jstr s), some (.jarr ds) => .ok ⟨s, ds⟩
    | _, _ => .error "invalid envelope"
  | _ => .error "object expected"

/-- `Client._get_data` (api_client.py): validate the envelope, then build
one record per element of `data`; the `status` field is consumed and
discarded. -/
def get_data (specs : List FieldSpec) (body : JValue) :
    Except String (List Record) :=
  match parseDataAPIResponse body with
  | .error e => .error e
  | .ok resp => buildList specs resp.data

/-- A tabular response body `{"status": s, "data": [...]}`. -/
def mkTabularBody (s : String) (ds : List JValue) : JValue :=
  .jobj [("status", .jstr s), ("data", .jarr ds)]

/-- Field table of `Municipality` (models.py): both fields required, no
aliases. -/
def Municipality.specs : List FieldSpec :=
  [⟨"id", "id", true, .fstr⟩, ⟨"name", "name", true, .fstr⟩]

/-- Field table of `TransactionPrice` (models.py): aliased wire names,
`type_` and `price_category` required, everything else optional. -/
def TransactionPrice.specs : List FieldSpec :=
  [⟨"type_", "Type", true, .fstr⟩,
   ⟨"region", "Region", false, .fstr⟩,
   ⟨"municipality_code", "MunicipalityCode", false, .fstr⟩,
   ⟨"prefecture", "Prefecture", false, .fstr⟩,
   ⟨"municipality", "Municipality", false, .fstr⟩,
   ⟨"district_name", "DistrictName", false, .fstr⟩,
   ⟨"trade_price", "TradePrice", false, .fint⟩,
   ⟨"price_per_unit", "PricePerUnit", false, .fint⟩,
   ⟨"floor_plan", "FloorPlan", false, .fstr⟩,
   ⟨"area", "Area", false, .ffloat⟩,
   ⟨"unit_price", "UnitPrice", false, .ffloat⟩,
   ⟨"land_shape", "LandShape", false, .fstr⟩,
   ⟨"frontage", "Frontage", false, .ffloat⟩,
   ⟨"total_floor_area", "TotalFloorArea", false, .ffloat⟩,
   ⟨"building_year", "BuildingYear", false, .fstr⟩,
   ⟨"structure", "Structure", false, .fstr⟩,
   ⟨"use", "Use", false, .fstr⟩,
   ⟨"purpose", "Purpose", false, .fstr⟩,
   ⟨"direction", "Direction", false, .fstr⟩,
   ⟨"classification", "Classification", false, .fstr⟩,
   ⟨"breadth", "Breadth", false, .ffloat⟩,
   ⟨"city_planning", "CityPlanning", false, .fstr⟩,
   ⟨"coverage_ratio", "CoverageRatio", false, .ffloat⟩,
   ⟨"floor_area_ratio", "FloorAreaRatio", false, .ffloat⟩,
   ⟨"period", "Period", false, .fstr⟩,
   ⟨"renovation", "Renovation", false, .fstr⟩,
   ⟨"remarks", "Remarks", false, .fstr⟩,
   ⟨"price_category", "PriceCategory", true, .fstr⟩]

/-- `isinstance(l, float)`. -/
def JValue.isFloat : JValue → Bool
  | .jfloat _ => true
  | _ => false

/-- The recursion `is_all_list(l, max_depth, depth)` from
`Geometry.check_coordinates` (models.py) only depends on the remaining
depth `max_depth - depth`, which drives this structural recursion: with
no depth left the value must be a float; otherwise a non-list fails, an
empty list passes, and a non-empty list recurses into its first
element. -/
def is_all_list_from : JValue → Nat → Bool
  | l, 0 => l.isFloat
  | l, n + 1 =>
    match l with
    | .jarr [] => true
    | .jarr (x :: _) => is_all_list_from x n
    | _ => false

/-- `is_all_list(l, max_depth, depth)` with the source's signature. -/
def is_all_list (l : JValue) (max_depth depth : Nat) : Bool :=
  is_all_list_from l (max_depth - depth)

/-- Python comparison `values.get("type") == tag` for a string tag. -/
def tagIs (v : Option JValue) (tag : String) : Bool :=
  match v with
  | some (.jstr t) => t == tag
  | _ => false

/-- `Geometry.check_coordinates` (models.py): the `mode="before"` model
validator.  A missing `coordinates` key yields Python `None`, which is
neither a list nor a float.  The declared depths are Point 1,
LineString 2, Polygon 3, MultiPolygon 4; on success the raw values are
returned unchanged. -/
def check_coordinates (values : List (String × JValue)) :
    Except String (List (String × JValue)) :=
  let geometry_type := assoc values "type"
  let coordinates := (assoc values "coordinates").getD .jnull
  if tagIs geometry_type "Point" && !is_all_list coordinates 1 0 then
    .error "For Point, coordinates must be a list of floats."
  else if tagIs geometry_type "LineString" && !is_all_list coordinates 2 0 then
    .error "For LineString, coordinates must be a list of floats."
  else if tagIs geometry_type "Polygon" && !is_all_list coordinates 3 0 then
    .error "For Polygon, coordinates must be a list[list[list[float]]]."
  else if tagIs geometry_type "MultiPolygon" && !is_all_list coordinates 4 0 then
    .error "For MultiPolygon, coordinates must be a list[list[list[list[float]]]]."
  else
    .ok values

/-- Element validation for `list[float]`: floats and (lax-coerced)
integers are accepted. -/
def parseFloatValue : JValue → Option Rat
  | .jfloat x => some x
  | .jint n => some (n : Rat)
  | _ => none

/-- `list[float]`. -/
def parseFloatList1 (v : JValue) : Option (List Rat) :=
  match v with
  | .jarr xs => xs.mapM parseFloatValue
  | _ => none

/-- `list[list[float]]`. -/
def parseFloatList2 (v : JValue) : Option (List (List Rat)) :=
  match v with
  | .jarr xs => xs.mapM parseFloatList1
  | _ => none

/-- `list[list[list[float]]]`. -/
def parseFloatList3 (v : JValue) : Option (List (List (List Rat))) :=
  match v with
  | .jarr xs => xs.mapM parseFloatList2
  | _ => none

/-- `list[list[list[list[float]]]]`. -/
def parseFloatList4 (v : JValue) : Option (List (List (List (List Rat)))) :=
  match v with
  | .jarr xs => xs.mapM parseFloatList3
  | _ => none

/-- The four shapes of the `coordinates` union field. -/
inductive Coordinates where
  | c1 : List Rat → Coordinates
  | c2 : List (List Rat) → Coordinates
  | c3 : List (List (List Rat)) → Coordinates
  | c4 : List (List (List (List Rat))) → Coordinates
deriving DecidableEq

/-- The `Union` annotation on `coordinates`: the first member that
validates wins. -/
def parseCoordinates (v : JValue) : Option Coordinates :=
  match parseFloatList1 v with
  | some l => some (.c1 l)
  | none =>
    match parseFloatList2 v with
    | some l => some (.c2 l)
    | none =>
      match parseFloatList3 v with
      | some l => some (.c3 l)
      | none =>
        match parseFloatList4 v with
        | some l => some (.c4 l)
        | none => none

/-- A validated `Geometry` instance. -/
structure Geometry where
  type : String
  coordinates : Coordinates
deriving DecidableEq

/-- The `Literal` values admitted for `Geometry.type`. -/
def geometryTypes : List String := ["Point", "LineString", "Polygon", "MultiPolygon"]

/-- Full validation of `Geometry(**values)`: the before-validator
`check_coordinates` runs first, then the `type` literal and the
`coordinates` union are validated. -/
def validateGeometry (values : List (String × JValue)) : Except String Geometry :=
  match check_coordinates values with
  | .error e => .error e
  | .ok vals =>
    match assoc vals "type" with
    | some (.jstr t) =>
      if t ∈ geometryTypes then
        match assoc vals "coordinates" with
        | some cv =>
          match parseCoordinates cv with
          | some c => .ok ⟨t, c⟩
          | none => .error "invalid coordinates"
        | none => .error "coordinates required"
      else .error "invalid geometry type"
    | _ => .error "type required"

/-- Nesting depth of a coordinates value as the specification words it:
each list layer adds one level; the chain follows first elements. -/
def specNestingDepth : JValue → Nat
  | .jarr [] => 1
  | .jarr (x :: _) => 1 + specNestingDepth x
  | _ => 0

/-- Following first elements, the value at exactly `n` levels down is a
float (so every intermediate layer is a non-empty list). -/
def reachesFloatAt : Nat → JValue → Bool
  | 0, v => v.isFloat
  | n + 1, .jarr (x :: _) => reachesFloatAt n x
  | _ + 1, _ => false

/-- Following first elements, an empty list occurs strictly before `n`
levels down. -/
def reachesEmptyBefore : Nat → JValue → Bool
  | 0, _ => false
  | _ + 1, .jarr [] => true
  | n + 1, .jarr (x :: _) => reachesEmptyBefore n x
  | _ + 1, _ => false

/-- `DEFAULT_BASE_URL` (api_http_client.py). -/
def DEFAULT_BASE_URL : String := "https://www.reinfolib.mlit.go.jp"

/-- `ApiHttpClient._make_url`: the f-string interpolation
`f"{base_url}/{request_path}"`. -/
def make_url (base_url request_path : String) : String :=
  base_url ++ "/" ++ request_path

/-- The request path the façade passes for the transaction-price list
endpoint (api_client.py, `get_transaction_price_list`). -/
def transaction_price_path : String := "/ex-api/external/XIT001"

/-- Replacement of the value of an entry when its key is the auth header
name. -/
def setAuthValue (api_key : String) (p : String × String) : String × String :=
  if p.1 == "Ocp-Apim-Subscription-Key" then (p.1, api_key) else p

/-- `ApiHttpClient._with_auth_headers`: the Python dict merge
`{**headers, "Ocp-Apim-Subscription-Key": api_key}` — an existing entry
for the auth header name keeps its position but takes the new value;
otherwise the entry is appended. -/
def with_auth_headers (api_key : String) (headers : List (String × String)) :
    List (String × String) :=
  if (headers.map Prod.fst).contains "Ocp-Apim-Subscription-Key" then
    headers.map (setAuthValue api_key)
  else
    headers ++ [("Ocp-Apim-Subscription-Key", api_key)]

/-- Python dict lookup on a header mapping. -/
def lookupHeader (d : List (String × String)) (k : String) : Option String :=
  (d.find? (fun p => p.1 == k)).map (fun p => p.2)

/-- The default `status_forcelist` of `_request_session`. -/
def default_status_forcelist : List Nat := [429, 500, 502, 503, 504]

/-- The default `allowed_methods` of `_request_session`. -/
def default_allowed_methods : List String := ["HEAD", "GET", "OPTIONS", "POST"]

/-- The settings baked into a `urllib3` `Retry` object by
`_request_session`. -/
structure RetrySettings where
  total : Nat
  status_forcelist : List Nat
  allowed_methods : List String
deriving DecidableEq

/-- A pooled `requests.Session` with its mounted adapter settings. -/
structure Session where
  retry : RetrySettings
  pool_connections : Nat
  pool_maxsize : Nat
deriving DecidableEq

/-- The session built on first use by `_request_session`: retry strategy
from the instance's `max_retries`, pool sizes from the instance's
`http_connection_pool_size`. -/
def mkSession (max_retries pool_size : Nat) (forcelist : List Nat)
    (methods : List String) : Session :=
  ⟨⟨max_retries, forcelist, methods⟩, pool_size, pool_size⟩

/-- `ApiHttpClient._request_session`: `self._session` is threaded as
explicit state.  A cached session is returned as is; otherwise one is
built from the instance settings (with the optional argument defaults)
and cached. -/
def request_session (max_retries pool_size : Nat)
    (status_forcelist : Option (List Nat)) (allowed_methods : Option (List String))
    (session : Option Session) : Session × Option Session :=
  let fl := status_forcelist.getD default_status_forcelist
  let am := allowed_methods.getD default_allowed_methods
  match session with
  | some s => (s, some s)
  | none =>
    let s := mkSession max_retries pool_size fl am
    (s, some s)

/-- Outcome of one finished HTTP exchange (after any retries). -/
inductive HttpOutcome where
  | success : Nat → HttpOutcome
  | failure : Nat → HttpOutcome
deriving DecidableEq

/-- Modelled from the spec: the bounded retry loop that
`urllib3.util.retry.Retry` performs inside `session.get` — the repository
only configures it (`ApiHttpClient._request_session`), it does not
implement it.  `server i` is the status the server answers on attempt
`i`; the second argument of the recursion is the remaining attempt
budget.  A status below 400 succeeds; a transient status (one in the
forcelist) is retried while budget remains; any other failure status, or
an exhausted budget, surfaces an HTTP error carrying the final status.
The result pairs the number of attempts made with the outcome (a zero
initial budget answers without making a request and is never used). -/
def retryRun (forcelist : List Nat) (server : Nat → Nat) :
    Nat → Nat → Nat × HttpOutcome
  | i, 0 => (i, .failure (server i))
  | i, fuel + 1 =>
    let s := server i
    if s < 400 then (i + 1, .success s)
    else if s ∈ forcelist ∧ fuel ≠ 0 then
      retryRun forcelist server (i + 1) fuel
    else (i + 1, .failure s)

/-- A GET with the configured retry policy, starting at attempt 0 with
`maxAttempts` total attempts allowed. -/
def retryGet (forcelist : List Nat) (maxAttempts : Nat) (server : Nat → Nat) :
    Nat × HttpOutcome :=
  retryRun forcelist server 0 maxAttempts

/-- Query parameter values occurring in the façade methods. -/
inductive PVal where
  | pstr : String → PVal
  | pint : Int → PVal
deriving DecidableEq

/-- Serialization of a parameter value into the query string. -/
def pvalToString : PVal → String
  | .pstr s => s
  | .pint n => toString n

/-- The params dict built by `Client.get_transaction_price_list`
(api_client.py): `year` is always present, the remaining entries carry
the optional arguments, `price_classification` under the wire key
`priceClassification`. -/
def transaction_price_params (year : Int) (area : Option String)
    (quarter : Option Int) (city station price_classification language : Option String) :
    List (String × Option PVal) :=
  [("year", some (.pint year)),
   ("area", area.map .pstr),
   ("quarter", quarter.map .pint),
   ("city", city.map .pstr),
   ("station", station.map .pstr),
   ("priceClassification", price_classification.map .pstr),
   ("language", language.map .pstr)]

/-- Modelled from the spec: the query-string encoding the HTTP layer
(`requests`, not part of this repository) applies to the params mapping —
entries whose value is `None` are omitted from the query string entirely,
supplied entries are serialized in order. -/
def encode_query (ps : List (String × Option PVal)) : List (String × String) :=
  ps.filterMap (fun p => p.2.map (fun v => (p.1, pvalToString v)))

/-- The contribution of one parameter to the encoded query string. -/
def optEntry (k : String) : Option String → List (String × String)
  | none => []
  | some v => [(k, v)]

/-- Errors a façade call can surface. -/
inductive ClientError where
  | httpStatus : Nat → ClientError
  | connectivity : ClientError
  | validation : ClientError
deriving DecidableEq

/-- What the network produced for one request: a final response (status
and body, after any retries) or a network-level failure. -/
inductive TransportOutcome where
  | response : Nat → JValue → TransportOutcome
  | connectionFailure : TransportOutcome

/-- `ApiHttpClient.get_json`: a network-level failure propagates as a
connectivity error; `response.raise_for_status()` turns any 4xx/5xx final
status into an HTTP error carrying that status; otherwise the JSON body
is returned. -/
def get_json (out : TransportOutcome) : Except ClientError JValue :=
  match out with
  | .connectionFailure => .error .connectivity
  | .response st body =>
    if 400 ≤ st ∧ st < 600 then .error (.httpStatus st) else .ok body

/-- A tabular façade method end to end: `get_json` composed with
`Client._get_data`; any pydantic failure propagates as a validation
error. -/
def client_get_data (specs : List FieldSpec) (out : TransportOutcome) :
    Except ClientError (List Record) :=
  match get_json out with
  | .error e => .error e
  | .ok body =>
    match get_data specs body with
    | .ok recs => .ok recs
    | .error _ => .error .validation

lemma pyStrip_empty : pyStrip "" = "" := by decide

lemma coerce_vstr {t : FType} {v : JValue} {s : String}
    (h : coerce t v = .ok (.vstr s)) : t = .fstr ∧ v = .jstr s := by
  cases t <;> cases v <;> simp only [coerce] at h
  all_goals try split at h
  all_goals simp_all

lemma empty_str_to_none_jstr {v : JValue} {s : String}
    (h : empty_str_to_none v = .jstr s) : pyStrip s ≠ "" := by
  cases v <;> simp only [empty_str_to_none] at h <;> try simp at h
  next s0 =>
    split at h
    · simp at h
    · next hne =>
      cases h
      exact hne

lemma buildPresent_blank_ok {t : FType} {req : Bool} {s : String}
    (hb : pyStrip s = "") {v : Option FVal}
    (hv : buildPresent t req (.jstr s) = .ok v) : v = none := by
  simp only [buildPresent, empty_str_to_none, hb, if_true, JValue.isNull] at hv
  split at hv
  · simp at hv
  · simp at hv
    exact hv.symm

lemma buildPresent_vstr {t : FType} {req : Bool} {raw : JValue} {s : String}
    (hv : buildPresent t req raw = .ok (some (.vstr s))) : s ≠ "" := by
  simp only [buildPresent] at hv
  split at hv
  · split at hv <;> simp at hv
  · cases hc : coerce t (empty_str_to_none raw) <;> rw [hc] at hv <;>
      simp [Except.map] at hv
    next fv =>
      have hc2 : coerce t (empty_str_to_none raw) = .ok (.vstr s) := by
        rw [hc, hv]
      obtain ⟨-, hraw⟩ := coerce_vstr hc2
      intro hemp
      exact empty_str_to_none_jstr hraw (by rw [hemp]; exact pyStrip_empty)

lemma buildField_blank_none {obj : List (String × JValue)} {fs : FieldSpec}
    (h : lookupRaw obj fs = none ∨
      ∃ s, lookupRaw obj fs = some (.jstr s) ∧ pyStrip s = "")
    {v : Option FVal} (hv : buildField obj fs = .ok v) : v = none := by
  rcases h with h | ⟨s, hs, hb⟩
  · simp only [buildField, h] at hv
    split at hv
    · simp at hv
    · simp at hv
      exact hv.symm
  · simp only [buildField, hs] at hv
    exact buildPresent_blank_ok hb hv

lemma buildField_no_empty_string {obj : List (String × JValue)} {fs : FieldSpec}
    {s : String} (hv : buildField obj fs = .ok (some (.vstr s))) : s ≠ "" := by
  cases hlook : lookupRaw obj fs with
  | none =>
    simp only [buildField, hlook] at hv
    split at hv <;> simp at hv
  | some raw =>
    simp only [buildField, hlook] at hv
    exact buildPresent_vstr hv

lemma buildRecord_field_mem {specs : List FieldSpec}
    {obj : List (String × JValue)} {r : Record}
    (h : buildRecord specs obj = .ok r) {fs : FieldSpec} (hmem : fs ∈ specs) :
    ∃ v, buildField obj fs = .ok v ∧ (fs.name, v) ∈ r := by
  induction specs generalizing r with
  | nil => cases hmem
  | cons hd tl ih =>
    rw [buildRecord] at h
    cases h1 : buildField obj hd with
    | error e => rw [h1] at h; simp at h
    | ok v =>
      rw [h1] at h
      cases h2 : buildRecord tl obj with
      | error e => rw [h2] at h; simp at h
      | ok rs =>
        rw [h2] at h
        cases h
        cases hmem with
        | head => exact ⟨v, h1, List.mem_cons_self _ _⟩
        | tail _ hmem2 =>
          obtain ⟨w, hw, hwmem⟩ := ih h2 hmem2
          exact ⟨w, hw, List.mem_cons_of_mem _ hwmem⟩

lemma buildRecord_entry_src {specs : List FieldSpec}
    {obj : List (String × JValue)} {r : Record}
    (h : buildRecord specs obj = .ok r) {p : String × Option FVal}
    (hp : p ∈ r) : ∃ fs ∈ specs, p.1 = fs.name ∧ buildField obj fs = .ok p.2 := by
  induction specs generalizing r with
  | nil =>
    rw [buildRecord] at h
    cases h
    cases hp
  | cons hd tl ih =>
    rw [buildRecord] at h
    cases h1 : buildField obj hd with
    | error e => rw [h1] at h; simp at h
    | ok v =>
      rw [h1] at h
      cases h2 : buildRecord tl obj with
      | error e => rw [h2] at h; simp at h
      | ok rs =>
        rw [h2] at h
        cases h
        cases hp with
        | head => exact ⟨hd, List.mem_cons_self _ _, rfl, h1⟩
        | tail _ hp2 =>
          obtain ⟨fs, hfs, h3, h4⟩ := ih h2 hp2
          exact ⟨fs, List.mem_cons_of_mem _ hfs, h3, h4⟩

/-- C1: for every record type on the shared base model (any field table)
and every successfully constructed record, a field whose wire value is
absent, the empty string, or a whitespace-only string comes out as null,
and no field of any constructed record holds the empty string. -/
theorem C1_blank_fields_normalize_to_none :
    ∀ (specs : List FieldSpec) (obj : List (String × JValue)) (r : Record),
      buildRecord specs obj = .ok r →
      (∀ fs ∈ specs,
          (lookupRaw obj fs = none ∨
            ∃ s, lookupRaw obj fs = some (.jstr s) ∧ pyStrip s = "") →
          (fs.name, (none : Option FVal)) ∈ r)
      ∧ (∀ nm, (nm, some (FVal.vstr "")) ∉ r) := by
  intro specs obj r h
  constructor
  · intro fs hmem hblank
    obtain ⟨v, hv, hvmem⟩ := buildRecord_field_mem h hmem
    rwa [buildField_blank_none hblank hv] at hvmem
  · intro nm hbad
    obtain ⟨fs, -, -, hfield⟩ := buildRecord_entry_src h hbad
    exact buildField_no_empty_string hfield rfl

/-- C1 witness: the `TransactionPrice` field `frontage` fed the wire value
`"Frontage": ""` is constructed as null. -/
theorem C1_witness :
    ("frontage", (none : Option FVal)) ∈
      [("frontage", (none : Option FVal))] := by
  have h := C1_blank_fields_normalize_to_none
    [⟨"frontage", "Frontage", false, .ffloat⟩]
    [("Frontage", JValue.jstr "")]
    [("frontage", none)] rfl
  exact h.1 ⟨"frontage", "Frontage", false, .ffloat⟩ (List.mem_singleton.mpr rfl)
    (Or.inr ⟨"", rfl, by decide⟩)

lemma buildList_length {specs : List FieldSpec} {ds : List JValue}
    {recs : List Record} (h : buildList specs ds = .ok recs) :
    recs.length = ds.length := by
  induction ds generalizing recs with
  | nil => rw [buildList] at h; cases h; rfl
  | cons d rest ih =>
    rw [buildList] at h
    cases h1 : buildElem specs d with
    | error e => rw [h1] at h; simp at h
    | ok r =>
      rw [h1] at h
      cases h2 : buildList specs rest with
      | error e => rw [h2] at h; simp at h
      | ok rs =>
        rw [h2] at h
        cases h
        simp [ih h2]

lemma buildList_get {specs : List FieldSpec} {ds : List JValue}
    {recs : List Record} (h : buildList specs ds = .ok recs) :
    ∀ (i : Nat) (h1 : i < ds.length) (h2 : i < recs.length),
      buildElem specs (ds.get ⟨i, h1⟩) = .ok (recs.get ⟨i, h2⟩) := by
  induction ds generalizing recs with
  | nil => intro i h1 h2; exact absurd h1 (by simp)
  | cons d rest ih =>
    rw [buildList] at h
    cases hb : buildElem specs d with
    | error e => rw [hb] at h; simp at h
    | ok r =>
      rw [hb] at h
      cases h2a : buildList specs rest with
      | error e => rw [h2a] at h; simp at h
      | ok rs =>
        rw [h2a] at h
        cases h
        intro i h1 h2
        cases i with
        | zero => simpa using hb
        | succ n => exact ih h2a n (by simpa using h1) (by simpa using h2)

lemma buildList_mem_ok {specs : List FieldSpec} {ds : List JValue}
    {recs : List Record} (h : buildList specs ds = .ok recs) :
    ∀ d ∈ ds, ∃ r, buildElem specs d = .ok r := by
  induction ds generalizing recs with
  | nil => intro d hd; cases hd
  | cons d0 rest ih =>
    rw [buildList] at h
    cases hb : buildElem specs d0 with
    | error e => rw [hb] at h; simp at h
    | ok r =>
      rw [hb] at h
      cases h2a : buildList specs rest with
      | error e => rw [h2a] at h; simp at h
      | ok rs =>
        intro d hd
        cases hd with
        | head => exact ⟨r, hb⟩
        | tail _ hd2 => exact ih h2a d hd2

lemma buildList_error_of_mem {specs : List FieldSpec} {ds : List JValue}
    (h : ∃ d ∈ ds, ∃ e, buildElem specs d = .error e) :
    ∃ e2, buildList specs ds = .error e2 := by
  induction ds with
  | nil => simp at h
  | cons d0 rest ih =>
    rcases h with ⟨d, hd, e, he⟩
    cases hd with
    | head => exact ⟨e, by simp [buildList, he]⟩
    | tail _ hd2 =>
      cases hb : buildElem specs d0 with
      | error e0 => exact ⟨e0, by simp [buildList, hb]⟩
      | ok r =>
        obtain ⟨e2, he2⟩ := ih ⟨d, hd2, e, he⟩
        exact ⟨e2, by simp [buildList, hb, he2]⟩

lemma get_data_mkTabular (specs : List FieldSpec) (s : String)
    (ds : List JValue) :
    get_data specs (mkTabularBody s ds) = buildList specs ds := rfl

/-- C3: a tabular façade call on a body `{"status": s, "data": [d1...dn]}`
whose elements all validate returns exactly the n records constructed (with
alias resolution, via `buildRecord`) from the data elements, in response
order; the status value plays no part in the result. -/
theorem C3_tabular_response_mapping :
    ∀ (specs : List FieldSpec) (s : String) (ds : List JValue)
      (recs : List Record),
      buildList specs ds = .ok recs →
      get_data specs (mkTabularBody s ds) = .ok recs
      ∧ recs.length = ds.length
      ∧ (∀ (i : Nat) (h1 : i < ds.length) (h2 : i < recs.length),
          buildElem specs (ds.get ⟨i, h1⟩) = .ok (recs.get ⟨i, h2⟩))
      ∧ (∀ s2 : String,
          get_data specs (mkTabularBody s2 ds) = get_data specs (mkTabularBody s ds)) := by
  intro specs s ds recs h
  refine ⟨?_, buildList_length h, buildList_get h, fun s2 => ?_⟩
  · rw [get_data_mkTabular]
    exact h
  · rw [get_data_mkTabular, get_data_mkTabular]

/-- C3 witness: a one-element `Municipality` fixture body maps to the one
constructed record. -/
theorem C3_witness :
    get_data Municipality.specs
        (mkTabularBody "OK" [.jobj [("id", .jstr "13101"), ("name", .jstr "千代田区")]])
      = .ok [[("id", some (.vstr "13101")), ("name", some (.vstr "千代田区"))]] :=
  (C3_tabular_response_mapping Municipality.specs "OK"
    [.jobj [("id", .jstr "13101"), ("name", .jstr "千代田区")]]
    [[("id", some (.vstr "13101")), ("name", some (.vstr "千代田区"))]] rfl).1

lemma is_all_list_from_eq_reaches :
    ∀ (d : Nat) (l : JValue),
      is_all_list_from l d = (reachesEmptyBefore d l || reachesFloatAt d l) := by
  intro d
  induction d with
  | zero =>
    intro l
    cases l <;> simp [is_all_list_from, reachesEmptyBefore, reachesFloatAt]
  | succ n ih =>
    intro l
    cases l with
    | jarr xs =>
      cases xs with
      | nil => simp [is_all_list_from, reachesEmptyBefore, reachesFloatAt]
      | cons x rest =>
        simp [is_all_list_from, reachesEmptyBefore, reachesFloatAt, ih x]
    | jnull => simp [is_all_list_from, reachesEmptyBefore, reachesFloatAt]
    | jbool b => simp [is_all_list_from, reachesEmptyBefore, reachesFloatAt]
    | jint n2 => simp [is_all_list_from, reachesEmptyBefore, reachesFloatAt]
    | jfloat x => simp [is_all_list_from, reachesEmptyBefore, reachesFloatAt]
    | jstr s => simp [is_all_list_from, reachesEmptyBefore, reachesFloatAt]
    | jobj o => simp [is_all_list_from, reachesEmptyBefore, reachesFloatAt]

/-- C9: the coordinate depth pre-check inspects only the chain of first
elements — it passes exactly when that chain hits an empty list before the
declared depth or a float at exactly the declared depth.  In particular a
Point whose leaf coordinates are integers is rejected, and the empty list
passes for every positive declared depth. -/
theorem C9_depth_check_follows_first_elements :
    (∀ (d : Nat) (l : JValue),
        is_all_list l d 0 = (reachesEmptyBefore d l || reachesFloatAt d l))
    ∧ is_all_list (.jarr [.jint 139, .jint 35]) 1 0 = false
    ∧ (∀ n : Nat, is_all_list (.jarr []) (n + 1) 0 = true) := by
  refine ⟨fun d l => ?_, by decide, fun n => rfl⟩
  rw [is_all_list, Nat.sub_zero]
  exact is_all_list_from_eq_reaches d l

lemma check_coordinates_ok_id {values w : List (String × JValue)}
    (h : check_coordinates values = .ok w) : w = values := by
  simp only [check_coordinates] at h
  split_ifs at h
  all_goals simp_all

/-- C2 amended: the three concrete behaviours — a Point with coordinates
[139.0, 35.0] deserializes with type "Point" and those coordinates, a
Polygon nested 3 levels deserializes, a Polygon with non-empty coordinates
nested only 2 levels fails — and every successful validation implies the
first-element depth pre-check passed. -/
theorem C2_geometry_depth_validation :
    validateGeometry [("type", .jstr "Point"),
        ("coordinates", .jarr [.jfloat 139, .jfloat 35])]
      = .ok ⟨"Point", .c1 [139, 35]⟩
    ∧ validateGeometry [("type", .jstr "Polygon"),
        ("coordinates", .jarr [.jarr [.jarr [.jfloat 139, .jfloat 35],
          .jarr [.jfloat 140, .jfloat 36]]])]
      = .ok ⟨"Polygon", .c3 [[[139, 35], [140, 36]]]⟩
    ∧ validateGeometry [("type", .jstr "Polygon"),
        ("coordinates", .jarr [.jarr [.jfloat 139, .jfloat 35]])]
      = .error "For Polygon, coordinates must be a list[list[list[float]]]."
    ∧ (∀ (values : List (String × JValue)) (g : Geometry),
        validateGeometry values = .ok g → check_coordinates values = .ok values) := by
  refine ⟨rfl, rfl, rfl, ?_⟩
  intro values g h
  rw [validateGeometry] at h
  cases hc : check_coordinates values with
  | error e => rw [hc] at h; simp at h
  | ok vals => rw [check_coordinates_ok_id hc]

/-- C2 witness: the successful Point validation implies the depth
pre-check passed on its raw values. -/
theorem C2_witness :
    check_coordinates [("type", JValue.jstr "Point"),
        ("coordinates", JValue.jarr [.jfloat 139, .jfloat 35])]
      = .ok [("type", JValue.jstr "Point"),
        ("coordinates", JValue.jarr [.jfloat 139, .jfloat 35])] :=
  C2_geometry_depth_validation.2.2.2
    [("type", JValue.jstr "Point"),
      ("coordinates", JValue.jarr [.jfloat 139, .jfloat 35])]
    ⟨"Point", .c1 [139, 35]⟩ rfl

/-- C2 counterexample: geometry validation does not succeed "exactly when
the nesting depth matches the declared tag" — a Polygon whose coordinates
are nested only 2 levels (the inner list empty) validates although the
declared depth for Polygon is 3. -/
theorem C2_counterexample :
    validateGeometry [("type", .jstr "Polygon"), ("coordinates", .jarr [.jarr []])]
      = .ok ⟨"Polygon", .c2 [[]]⟩
    ∧ specNestingDepth (.jarr [.jarr []]) = 2
    ∧ (2 : Nat) ≠ 3 := by
  refine ⟨rfl, ?_, by decide⟩
  simp [specNestingDepth]

lemma retryRun_attempts_le (fl : List Nat) (srv : Nat → Nat) :
    ∀ (fuel i : Nat), (retryRun fl srv i fuel).1 ≤ i + fuel := by
  intro fuel
  induction fuel with
  | zero =>
    intro i
    simp [retryRun]
  | succ n ih =>
    intro i
    simp only [retryRun]
    split_ifs with h1 h2
    · show i + 1 ≤ i + (n + 1)
      omega
    · have h3 := ih (i + 1)
      omega
    · show i + 1 ≤ i + (n + 1)
      omega

/-- C4 (retry policy, modelled from the spec since urllib3 implements the
loop): with the default forcelist and 3 total attempts, a server answering
503, 503, 200 succeeds after exactly 3 attempts; a server answering 503
three times surfaces an HTTP error after 3 attempts; a non-transient
failure status is never retried; and the attempt count never exceeds the
configured maximum. -/
theorem C4_bounded_retry_on_transient_statuses :
    retryGet default_status_forcelist 3 (fun i => if i < 2 then 503 else 200)
      = (3, .success 200)
    ∧ retryGet default_status_forcelist 3 (fun _ => 503) = (3, .failure 503)
    ∧ (∀ server : Nat → Nat, 400 ≤ server 0 →
        server 0 ∉ default_status_forcelist →
        retryGet default_status_forcelist 3 server = (1, .failure (server 0)))
    ∧ (∀ (maxAttempts : Nat) (server : Nat → Nat),
        (retryGet default_status_forcelist maxAttempts server).1 ≤ maxAttempts) := by
  refine ⟨by decide, by decide, ?_, fun maxA srv => ?_⟩
  · intro srv h1 h2
    have hlt : ¬ srv 0 < 400 := by omega
    simp [retryGet, retryRun, hlt, h2]
  · have h := retryRun_attempts_le default_status_forcelist srv maxA 0
    simpa [retryGet] using h

/-- C4 witness: a 404 is surfaced after a single attempt, without
retries. -/
theorem C4_witness :
    retryGet default_status_forcelist 3 (fun _ => 404) = (1, .failure 404) :=
  C4_bounded_retry_on_transient_statuses.2.2.1 (fun _ => 404)
    (by decide) (by decide)

/-- C5: in the query string finally transmitted for
`get_transaction_price_list`, exactly the supplied parameters appear —
`year` always, each optional parameter exactly when the caller supplied
it; a `None` argument leaves no key at all (so it is never serialized as a
`"None"` string). -/
theorem C5_unset_parameters_absent_from_query :
    ∀ (year : Int) (area : Option String) (quarter : Option Int)
      (city station price_classification language : Option String),
      encode_query (transaction_price_params year area quarter city station
          price_classification language)
        = ("year", toString year) ::
            (optEntry "area" area ++ optEntry "quarter" (quarter.map toString)
              ++ optEntry "city" city ++ optEntry "station" station
              ++ optEntry "priceClassification" price_classification
              ++ optEntry "language" language) := by
  intro year area quarter city station price_classification language
  cases area <;> cases quarter <;> cases city <;> cases station <;>
    cases price_classification <;> cases language <;> rfl

/-- C8: the pooled session is created lazily by the first call (from the
settings supplied then) and cached; every later call — whatever settings
it would pass — returns the cached session unchanged and leaves the state
unchanged. -/
theorem C8_session_lazily_created_then_reused :
    ∀ (mr ps : Nat) (fl : Option (List Nat)) (am : Option (List String))
      (mr2 ps2 : Nat) (fl2 : Option (List Nat)) (am2 : Option (List String)),
      request_session mr ps fl am none
        = (mkSession mr ps (fl.getD default_status_forcelist)
            (am.getD default_allowed_methods),
          some (mkSession mr ps (fl.getD default_status_forcelist)
            (am.getD default_allowed_methods)))
      ∧ (∀ s : Session, request_session mr2 ps2 fl2 am2 (some s) = (s, some s))
      ∧ request_session mr2 ps2 fl2 am2 (request_session mr ps fl am none).2
          = ((request_session mr ps fl am none).1,
            (request_session mr ps fl am none).2) := by
  intro mr ps fl am mr2 ps2 fl2 am2
  exact ⟨rfl, fun s => rfl, rfl⟩

/-- C7 counterexample: the URL actually built for the transaction-price
endpoint is the base joined with an extra slash to a path that already
starts with a slash, so it is not exactly
`https://<host>/ex-api/external/XIT001`. -/
theorem C7_counterexample :
    make_url DEFAULT_BASE_URL transaction_price_path
      = "https://www.reinfolib.mlit.go.jp//ex-api/external/XIT001"
    ∧ make_url DEFAULT_BASE_URL transaction_price_path
      ≠ "https://www.reinfolib.mlit.go.jp/ex-api/external/XIT001" := by
  exact ⟨rfl, by decide⟩

lemma lookupHeader_cons (k0 v0 : String) (rest : List (String × String))
    (k : String) :
    lookupHeader ((k0, v0) :: rest) k
      = if k0 == k then some v0 else lookupHeader rest k := by
  simp only [lookupHeader, List.find?]
  cases h : k0 == k <;> simp [h]

lemma str_beq_symm_false {a b : String} (h : (a == b) = false) :
    (b == a) = false := by
  rw [beq_eq_false_iff_ne] at h ⊢
  exact fun e => h e.symm

lemma setAuthValue_pos (api_key v0 : String) :
    setAuthValue api_key ("Ocp-Apim-Subscription-Key", v0)
      = ("Ocp-Apim-Subscription-Key", api_key) := by
  simp [setAuthValue]

lemma setAuthValue_neg {k0 : String} (api_key v0 : String)
    (hk : (k0 == "Ocp-Apim-Subscription-Key") = false) :
    setAuthValue api_key (k0, v0) = (k0, v0) := by
  simp [setAuthValue, hk]

lemma lookup_map_set_same (api_key : String) :
    ∀ (t : List (String × String)),
      (t.map Prod.fst).contains "Ocp-Apim-Subscription-Key" = true →
      lookupHeader (t.map (setAuthValue api_key)) "Ocp-Apim-Subscription-Key"
        = some api_key := by
  intro t
  induction t with
  | nil => intro hc; simp at hc
  | cons p rest ih =>
    intro hc
    obtain ⟨k1, v1⟩ := p
    by_cases h1 : (k1 == "Ocp-Apim-Subscription-Key") = true
    · have h1e : k1 = "Ocp-Apim-Subscription-Key" := eq_of_beq h1
      subst h1e
      rw [List.map_cons, setAuthValue_pos, lookupHeader_cons]
      simp
    · have h1f : (k1 == "Ocp-Apim-Subscription-Key") = false := by simpa using h1
      rw [List.map_cons, setAuthValue_neg _ _ h1f, lookupHeader_cons, h1f]
      simp only [Bool.false_eq_true, if_false]
      apply ih
      simp only [List.map_cons, List.contains_cons, str_beq_symm_false h1f,
        Bool.false_or] at hc
      exact hc

lemma lookup_map_set_other (api_key k : String)
    (hk : (k == "Ocp-Apim-Subscription-Key") = false) :
    ∀ (t : List (String × String)),
      lookupHeader (t.map (setAuthValue api_key)) k = lookupHeader t k := by
  intro t
  induction t with
  | nil => rfl
  | cons p rest ih =>
    obtain ⟨k1, v1⟩ := p
    by_cases h1 : (k1 == "Ocp-Apim-Subscription-Key") = true
    · have h1e : k1 = "Ocp-Apim-Subscription-Key" := eq_of_beq h1
      subst h1e
      rw [List.map_cons, setAuthValue_pos, lookupHeader_cons, lookupHeader_cons,
        str_beq_symm_false hk]
      simp only [Bool.false_eq_true, if_false]
      exact ih
    · have h1f : (k1 == "Ocp-Apim-Subscription-Key") = false := by simpa using h1
      rw [List.map_cons, setAuthValue_neg _ _ h1f, lookupHeader_cons, lookupHeader_cons]
      cases h2 : k1 == k
      · simp only [Bool.false_eq_true, if_false]
        exact ih
      · simp

lemma lookup_append_auth_same (api_key : String) :
    ∀ (t : List (String × String)),
      (t.map Prod.fst).contains "Ocp-Apim-Subscription-Key" = false →
      lookupHeader (t ++ [("Ocp-Apim-Subscription-Key", api_key)])
        "Ocp-Apim-Subscription-Key" = some api_key := by
  intro t
  induction t with
  | nil =>
    intro hc
    rw [List.nil_append, lookupHeader_cons]
    simp
  | cons p rest ih =>
    intro hc
    obtain ⟨k1, v1⟩ := p
    simp only [List.map_cons, List.contains_cons, Bool.or_eq_false_iff] at hc
    rw [List.cons_append, lookupHeader_cons, str_beq_symm_false hc.1]
    simp only [Bool.false_eq_true, if_false]
    exact ih hc.2

lemma lookup_append_auth_other (api_key k : String)
    (hk : (k == "Ocp-Apim-Subscription-Key") = false) :
    ∀ (t : List (String × String)),
      lookupHeader (t ++ [("Ocp-Apim-Subscription-Key", api_key)]) k
        = lookupHeader t k := by
  intro t
  induction t with
  | nil =>
    rw [List.nil_append, lookupHeader_cons, str_beq_symm_false hk]
    simp [lookupHeader]
  | cons p rest ih =>
    obtain ⟨k1, v1⟩ := p
    rw [List.cons_append, lookupHeader_cons, lookupHeader_cons]
    cases h2 : k1 == k
    · simp only [Bool.false_eq_true, if_false]
      exact ih
    · simp

lemma with_auth_lookup_same (api_key : String) (hs : List (String × String)) :
    lookupHeader (with_auth_headers api_key hs) "Ocp-Apim-Subscription-Key"
      = some api_key := by
  rw [with_auth_headers]
  cases hc : (hs.map Prod.fst).contains "Ocp-Apim-Subscription-Key"
  · simp only [Bool.false_eq_true, if_false]
    exact lookup_append_auth_same api_key hs hc
  · simp only [if_true]
    exact lookup_map_set_same api_key hs hc

lemma with_auth_lookup_other (api_key k : String)
    (hk : k ≠ "Ocp-Apim-Subscription-Key") (hs : List (String × String)) :
    lookupHeader (with_auth_headers api_key hs) k = lookupHeader hs k := by
  have hkb : (k == "Ocp-Apim-Subscription-Key") = false := by
    rw [beq_eq_false_iff_ne]
    exact hk
  rw [with_auth_headers]
  cases hc : (hs.map Prod.fst).contains "Ocp-Apim-Subscription-Key"
  · simp only [Bool.false_eq_true, if_false]
    exact lookup_append_auth_other api_key k hkb hs
  · simp only [if_true]
    exact lookup_map_set_other api_key k hkb hs

/-- C10: merging the auth header overwrites any caller-supplied entry
under the fixed auth header name with the configured API key, and leaves
every other caller header readable unchanged. -/
theorem C10_auth_header_overwrites_caller :
    ∀ (api_key : String) (headers : List (String × String)),
      lookupHeader (with_auth_headers api_key headers) "Ocp-Apim-Subscription-Key"
        = some api_key
      ∧ (∀ k, k ≠ "Ocp-Apim-Subscription-Key" →
          lookupHeader (with_auth_headers api_key headers) k = lookupHeader headers k) := by
  intro api_key headers
  exact ⟨with_auth_lookup_same api_key headers,
    fun k hk => with_auth_lookup_other api_key k hk headers⟩

/-- C10 witness: a caller-supplied auth header is overwritten by the
configured key, while the caller's `Accept` header passes through. -/
theorem C10_witness :
    lookupHeader (with_auth_headers "real-key"
        [("Ocp-Apim-Subscription-Key", "caller-key"), ("Accept", "application/json")])
        "Ocp-Apim-Subscription-Key" = some "real-key"
    ∧ lookupHeader (with_auth_headers "real-key"
        [("Ocp-Apim-Subscription-Key", "caller-key"), ("Accept", "application/json")])
        "Accept" = some "application/json" := by
  have h := C10_auth_header_overwrites_caller "real-key"
    [("Ocp-Apim-Subscription-Key", "caller-key"), ("Accept", "application/json")]
  refine ⟨h.1, ?_⟩
  rw [h.2 "Accept" (by decide)]
  rfl

/-- C7 amended: each endpoint passes a path that already starts with a
slash, and `_make_url` joins base and path with another slash, so the
transaction-price request URL is the HTTPS base followed by
`//ex-api/external/XIT001` (a doubled slash, not the single-slash form);
the API key is attached under the fixed header name
`Ocp-Apim-Subscription-Key`. -/
theorem C7_https_get_url_and_auth_header :
    make_url DEFAULT_BASE_URL transaction_price_path
      = "https://www.reinfolib.mlit.go.jp//ex-api/external/XIT001"
    ∧ (∃ rest : String,
        make_url DEFAULT_BASE_URL transaction_price_path = "https://" ++ rest)
    ∧ (∀ (api_key : String) (headers : List (String × String)),
        lookupHeader (with_auth_headers api_key headers) "Ocp-Apim-Subscription-Key"
          = some api_key) := by
  refine ⟨rfl, ⟨"www.reinfolib.mlit.go.jp//ex-api/external/XIT001", by decide⟩,
    fun api_key headers => with_auth_lookup_same api_key headers⟩

/-- C6: every failure surfaces and no call returns partial results — a
failure status becomes an HTTP error carrying that status, a network
failure becomes a connectivity error, a validation failure on any data
element becomes a validation error, and a call that does return a list
returns one record for every data element. -/
theorem C6_failures_propagate_all_or_nothing :
    ∀ (specs : List FieldSpec),
      (∀ (st : Nat) (body : JValue), 400 ≤ st → st < 600 →
          client_get_data specs (.response st body) = .error (.httpStatus st))
      ∧ client_get_data specs .connectionFailure = .error .connectivity
      ∧ (∀ (st : Nat) (s : String) (ds : List JValue), st < 400 →
          (∃ d ∈ ds, ∃ e, buildElem specs d = .error e) →
          client_get_data specs (.response st (mkTabularBody s ds))
            = .error .validation)
      ∧ (∀ (st : Nat) (s : String) (ds : List JValue) (recs : List Record),
          client_get_data specs (.response st (mkTabularBody s ds)) = .ok recs →
          recs.length = ds.length ∧ ∀ d ∈ ds, ∃ r, buildElem specs d = .ok r) := by
  intro specs
  refine ⟨?_, rfl, ?_, ?_⟩
  · intro st body h1 h2
    simp [client_get_data, get_json, h1, h2]
  · intro st s ds hlt hex
    have hj : get_json (.response st (mkTabularBody s ds))
        = .ok (mkTabularBody s ds) := by
      simp only [get_json, if_neg (by omega : ¬(400 ≤ st ∧ st < 600))]
    obtain ⟨e2, he2⟩ := buildList_error_of_mem hex
    simp only [client_get_data, hj, get_data_mkTabular, he2]
  · intro st s ds recs h
    by_cases hrange : 400 ≤ st ∧ st < 600
    · simp [client_get_data, get_json, hrange] at h
    · have hj : get_json (.response st (mkTabularBody s ds))
          = .ok (mkTabularBody s ds) := by
        simp only [get_json, if_neg hrange]
      simp only [client_get_data, hj, get_data_mkTabular] at h
      cases hb : buildList specs ds with
      | error e => rw [hb] at h; simp at h
      | ok rs =>
        rw [hb] at h
        simp at h
        exact ⟨buildList_length (h ▸ hb), fun d hd => buildList_mem_ok (h ▸ hb) d hd⟩

/-- C6 witness: a final 503 surfaces as an HTTP error carrying status
503. -/
theorem C6_witness :
    client_get_data [] (.response 503 .jnull) = .error (.httpStatus 503) :=
  (C6_failures_propagate_all_or_nothing []).1 503 .jnull (by decide) (by decide)

end Reinfolib
